import Mathlib

/-!
Verification of the DCC test-station firmware core (nmradcc/DCC_tester)
against its natural-language specification.

The development shallowly embeds the C/C++ sources:
* the Parameter Manager (Core/Src/parameter_manager.c): CRC-32, flash
  save/restore, typed setters/getters over the 512-byte RAM shadow;
* the Command Station control layer (Core/Src/SUSI_master.c, canonical
  variant with loop modes 0..3 and the zero-bit override map) and the
  TIM2 update ISR with its per-bit timing override;
* the JSON-RPC handlers (command-station start/stop/transmit, system
  reboot) and the USB-CDC line-framing thread.

Machine integers are modelled as Nat/Int with explicit reductions modulo
2^w where the C code can overflow.  Fallible operations return an Int
status (0 success, -1 failure) paired with the updated state, mirroring
the C return conventions.
-/

namespace DCCTester

set_option maxRecDepth 40000

/-! ## CRC-32 (parameter_manager.c)

The 256-entry lookup table is transcribed verbatim from the
crc32_table initialiser in Core/Src/parameter_manager.c. -/

def crc32_table : List Nat := [
  0x00000000, 0x77073096, 0xEE0E612C, 0x990951BA, 0x076DC419, 0x706AF48F, 0xE963A535, 0x9E6495A3,
  0x0EDB8832, 0x79DCB8A4, 0xE0D5E91E, 0x97D2D988, 0x09B64C2B, 0x7EB17CBD, 0xE7B82D07, 0x90BF1D91,
  0x1DB71064, 0x6AB020F2, 0xF3B97148, 0x84BE41DE, 0x1ADAD47D, 0x6DDDE4EB, 0xF4D4B551, 0x83D385C7,
  0x136C9856, 0x646BA8C0, 0xFD62F97A, 0x8A65C9EC, 0x14015C4F, 0x63066CD9, 0xFA0F3D63, 0x8D080DF5,
  0x3B6E20C8, 0x4C69105E, 0xD56041E4, 0xA2677172, 0x3C03E4D1, 0x4B04D447, 0xD20D85FD, 0xA50AB56B,
  0x35B5A8FA, 0x42B2986C, 0xDBBBC9D6, 0xACBCF940, 0x32D86CE3, 0x45DF5C75, 0xDCD60DCF, 0xABD13D59,
  0x26D930AC, 0x51DE003A, 0xC8D75180, 0xBFD06116, 0x21B4F4B5, 0x56B3C423, 0xCFBA9599, 0xB8BDA50F,
  0x2802B89E, 0x5F058808, 0xC60CD9B2, 0xB10BE924, 0x2F6F7C87, 0x58684C11, 0xC1611DAB, 0xB6662D3D,
  0x76DC4190, 0x01DB7106, 0x98D220BC, 0xEFD5102A, 0x71B18589, 0x06B6B51F, 0x9FBFE4A5, 0xE8B8D433,
  0x7807C9A2, 0x0F00F934, 0x9609A88E, 0xE10E9818, 0x7F6A0DBB, 0x086D3D2D, 0x91646C97, 0xE6635C01,
  0x6B6B51F4, 0x1C6C6162, 0x856530D8, 0xF262004E, 0x6C0695ED, 0x1B01A57B, 0x8208F4C1, 0xF50FC457,
  0x65B0D9C6, 0x12B7E950, 0x8BBEB8EA, 0xFCB9887C, 0x62DD1DDF, 0x15DA2D49, 0x8CD37CF3, 0xFBD44C65,
  0x4DB26158, 0x3AB551CE, 0xA3BC0074, 0xD4BB30E2, 0x4ADFA541, 0x3DD895D7, 0xA4D1C46D, 0xD3D6F4FB,
  0x4369E96A, 0x346ED9FC, 0xAD678846, 0xDA60B8D0, 0x44042D73, 0x33031DE5, 0xAA0A4C5F, 0xDD0D7CC9,
  0x5005713C, 0x270241AA, 0xBE0B1010, 0xC90C2086, 0x5768B525, 0x206F85B3, 0xB966D409, 0xCE61E49F,
  0x5EDEF90E, 0x29D9C998, 0xB0D09822, 0xC7D7A8B4, 0x59B33D17, 0x2EB40D81, 0xB7BD5C3B, 0xC0BA6CAD,
  0xEDB88320, 0x9ABFB3B6, 0x03B6E20C, 0x74B1D29A, 0xEAD54739, 0x9DD277AF, 0x04DB2615, 0x73DC1683,
  0xE3630B12, 0x94643B84, 0x0D6D6A3E, 0x7A6A5AA8, 0xE40ECF0B, 0x9309FF9D, 0x0A00AE27, 0x7D079EB1,
  0xF00F9344, 0x8708A3D2, 0x1E01F268, 0x6906C2FE, 0xF762575D, 0x806567CB, 0x196C3671, 0x6E6B06E7,
  0xFED41B76, 0x89D32BE0, 0x10DA7A5A, 0x67DD4ACC, 0xF9B9DF6F, 0x8EBEEFF9, 0x17B7BE43, 0x60B08ED5,
  0xD6D6A3E8, 0xA1D1937E, 0x38D8C2C4, 0x4FDFF252, 0xD1BB67F1, 0xA6BC5767, 0x3FB506DD, 0x48B2364B,
  0xD80D2BDA, 0xAF0A1B4C, 0x36034AF6, 0x41047A60, 0xDF60EFC3, 0xA867DF55, 0x316E8EEF, 0x4669BE79,
  0xCB61B38C, 0xBC66831A, 0x256FD2A0, 0x5268E236, 0xCC0C7795, 0xBB0B4703, 0x220216B9, 0x5505262F,
  0xC5BA3BBE, 0xB2BD0B28, 0x2BB45A92, 0x5CB36A04, 0xC2D7FFA7, 0xB5D0CF31, 0x2CD99E8B, 0x5BDEAE1D,
  0x9B64C2B0, 0xEC63F226, 0x756AA39C, 0x026D930A, 0x9C0906A9, 0xEB0E363F, 0x72076785, 0x05005713,
  0x95BF4A82, 0xE2B87A14, 0x7BB12BAE, 0x0CB61B38, 0x92D28E9B, 0xE5D5BE0D, 0x7CDCEFB7, 0x0BDBDF21,
  0x86D3D2D4, 0xF1D4E242, 0x68DDB3F8, 0x1FDA836E, 0x81BE16CD, 0xF6B9265B, 0x6FB077E1, 0x18B74777,
  0x88085AE6, 0xFF0F6A70, 0x66063BCA, 0x11010B5C, 0x8F659EFF, 0xF862AE69, 0x616BFFD3, 0x166CCF45,
  0xA00AE278, 0xD70DD2EE, 0x4E048354, 0x3903B3C2, 0xA7672661, 0xD06016F7, 0x4969474D, 0x3E6E77DB,
  0xAED16A4A, 0xD9D65ADC, 0x40DF0B66, 0x37D83BF0, 0xA9BCAE53, 0xDEBB9EC5, 0x47B2CF7F, 0x30B5FFE9,
  0xBDBDF21C, 0xCABAC28A, 0x53B39330, 0x24B4A3A6, 0xBAD03605, 0xCDD70693, 0x54DE5729, 0x23D967BF,
  0xB3667A2E, 0xC4614AB8, 0x5D681B02, 0x2A6F2B94, 0xB40BBE37, 0xC30C8EA1, 0x5A05DF1B, 0x2D02EF8D]

/-- Size of the persistent parameter payload (PARAM_DATA_SIZE). -/
def PARAM_DATA_SIZE : Nat := 512

/-- One byte step of the table-driven CRC loop in calculate_crc32:
index = (crc ^ byte) & 0xFF; crc = (crc >> 8) ^ crc32_table[index]. -/
def crcStep (crc b : Nat) : Nat :=
  (crc >>> 8) ^^^ crc32_table.getD ((crc ^^^ b) &&& 0xFF) 0

/-- The crc loop of calculate_crc32 over a byte list, from a given
running value. -/
def crcFold (crc : Nat) (data : List Nat) : Nat :=
  data.foldl crcStep crc

/-- calculate_crc32 (parameter_manager.c): NULL/empty/oversize guard
returns 0, otherwise the table-driven loop from 0xFFFFFFFF with a final
complement (~crc on uint32_t, i.e. xor with 0xFFFFFFFF). The C length
argument is the length of the byte list. -/
def calculate_crc32 (data : List Nat) : Nat :=
  if data.length = 0 ∨ data.length > PARAM_DATA_SIZE then 0
  else (crcFold 0xFFFFFFFF data) ^^^ 0xFFFFFFFF

/-! Reference CRC-32, written from the specification words: reflected
CRC-32 with polynomial 0xEDB88320, initial value 0xFFFFFFFF, final XOR
0xFFFFFFFF, processing each byte LSB first. Used only to compare the
table-driven source implementation against the spec (claim C3). -/

/-- Reference definition: one reflected bit step; if the LSB is set,
shift right and xor the polynomial, else just shift right. -/
def crcBitRef (c : Nat) : Nat :=
  (c >>> 1) ^^^ (if c % 2 = 1 then 0xEDB88320 else 0)

/-- Reference definition: eight reflected bit steps. -/
def crcBits8 (c : Nat) : Nat :=
  crcBitRef (crcBitRef (crcBitRef (crcBitRef
    (crcBitRef (crcBitRef (crcBitRef (crcBitRef c)))))))

/-- Reference definition: one byte step — xor the byte into the running
value, then eight reflected bit steps. -/
def crcByteRef (c b : Nat) : Nat := crcBits8 (c ^^^ b)

/-- Reference definition: reflected CRC-32 of a byte list (poly
0xEDB88320, init 0xFFFFFFFF, final XOR 0xFFFFFFFF). -/
def crc32_reference (data : List Nat) : Nat :=
  (data.foldl crcByteRef 0xFFFFFFFF) ^^^ 0xFFFFFFFF

/-! ## Parameter manager state and flash image (parameter_manager.c) -/

/-- Flash magic number 'PARA'. -/
def MAGIC_NUMBER : Nat := 0x50415241

/-- Flash layout version. -/
def VERSION : Nat := 1

/-- The RAM side of the parameter manager: g_initialized, g_modified and
the 512-byte union g_paramData viewed as its byte array. -/
structure PMState where
  initialized : Bool
  modified : Bool
  shadow : List Nat
deriving Repr, DecidableEq

/-- FlashStorage_t: header words plus the 512-byte payload. -/
structure FlashStorage where
  magic : Nat
  version : Nat
  crc32 : Nat
  dataSize : Nat
  data : List Nat
deriving Repr, DecidableEq

/-- The FlashStorage_t image that parameter_manager_save assembles in
g_flashStorage before programming it: magic, version, dataSize, a copy
of the RAM shadow, and the CRC computed over that copy. -/
def savedImage (s : PMState) : FlashStorage :=
  { magic := MAGIC_NUMBER
    version := VERSION
    crc32 := calculate_crc32 s.shadow
    dataSize := PARAM_DATA_SIZE
    data := s.shadow }

/-- parameter_manager_save on the success path of the flash HAL: writes
the assembled image, returns status 0 and clears the dirty flag; fails
with -1 when the manager is not initialized.  Flash erase/program
hardware errors are not modelled: the round-trip claims condition on the
save having returned 0. -/
def parameter_manager_save (s : PMState) : Int × Option FlashStorage × PMState :=
  if ¬ s.initialized then (-1, none, s)
  else (0, some (savedImage s), { s with modified := false })

/-- parameter_manager_restore: reads the flash image, validates magic,
version, data size and CRC in that order, and only when all four checks
pass copies the payload into the RAM shadow and clears g_modified;
returns -1 without touching the shadow when any check fails. -/
def parameter_manager_restore (fl : FlashStorage) (s : PMState) : Int × PMState :=
  if ¬ s.initialized then (-1, s)
  else if fl.magic ≠ MAGIC_NUMBER then (-1, s)
  else if fl.version ≠ VERSION then (-1, s)
  else if fl.dataSize ≠ PARAM_DATA_SIZE then (-1, s)
  else if calculate_crc32 fl.data ≠ fl.crc32 then (-1, s)
  else (0, { s with shadow := fl.data, modified := false })

/-! Byte offsets of the TimingConfig-related fields inside
ParameterData_t (natural ARM alignment of the declared struct):
dcc_track_voltage u16 @0, dcc_track_current_limit u16 @2,
dcc_preamble_bits u8 @4, dcc_bit1_duration u8 @5, dcc_bit0_duration u8
@6, dcc_bidi_enable u8 @7, dcc_trigger_first_bit u8 @8, pad @9,
dcc_short_circuit_threshold u16 @10, dcc_bidi_dac u16 @12. -/

def OFF_PREAMBLE : Nat := 4
def OFF_BIT1 : Nat := 5
def OFF_BIT0 : Nat := 6
def OFF_BIDI_ENABLE : Nat := 7
def OFF_TRIGGER_FIRST_BIT : Nat := 8
def OFF_BIDI_DAC : Nat := 12

/-- Write one byte of the shadow (direct structure member store of a
uint8_t field). -/
def shadowSetByte (s : PMState) (off v : Nat) : PMState :=
  { s with shadow := s.shadow.set off (v % 256) }

/-- Read one byte of the shadow. -/
def shadowGetByte (s : PMState) (off : Nat) : Nat :=
  s.shadow.getD off 0

/-- set_dcc_preamble_bits: no range validation; writes the byte and
marks the dirty flag. -/
def set_dcc_preamble_bits (v : Nat) (s : PMState) : Int × PMState :=
  if ¬ s.initialized then (-1, s)
  else (0, { shadowSetByte s OFF_PREAMBLE v with modified := true })

/-- set_dcc_bit1_duration: no range validation; writes the byte and
marks the dirty flag. -/
def set_dcc_bit1_duration (v : Nat) (s : PMState) : Int × PMState :=
  if ¬ s.initialized then (-1, s)
  else (0, { shadowSetByte s OFF_BIT1 v with modified := true })

/-- set_dcc_bit0_duration: no range validation; writes the byte and
marks the dirty flag. -/
def set_dcc_bit0_duration (v : Nat) (s : PMState) : Int × PMState :=
  if ¬ s.initialized then (-1, s)
  else (0, { shadowSetByte s OFF_BIT0 v with modified := true })

/-- get_dcc_preamble_bits (output parameter modelled as the returned
value; the NULL-pointer guard is not representable). -/
def get_dcc_preamble_bits (s : PMState) : Nat := shadowGetByte s OFF_PREAMBLE

/-- get_dcc_bit1_duration. -/
def get_dcc_bit1_duration (s : PMState) : Nat := shadowGetByte s OFF_BIT1

/-- get_dcc_bit0_duration. -/
def get_dcc_bit0_duration (s : PMState) : Nat := shadowGetByte s OFF_BIT0

/-- get_dcc_bidi_enable. -/
def get_dcc_bidi_enable (s : PMState) : Nat := shadowGetByte s OFF_BIDI_ENABLE

/-- get_dcc_trigger_first_bit. -/
def get_dcc_trigger_first_bit (s : PMState) : Nat :=
  shadowGetByte s OFF_TRIGGER_FIRST_BIT

/-- get_dcc_bidi_dac (little-endian uint16_t at offset 12). -/
def get_dcc_bidi_dac (s : PMState) : Nat :=
  shadowGetByte s OFF_BIDI_DAC + 256 * shadowGetByte s (OFF_BIDI_DAC + 1)

/-- load_defaults (parameter_manager.c): clears the 512-byte shadow and
stores the compiled default values field by field.  Only the byte image
matters here; multi-byte fields are stored little-endian. -/
def load_defaults (s : PMState) : PMState :=
  let z : PMState := { s with shadow := List.replicate PARAM_DATA_SIZE 0 }
  let a := shadowSetByte (shadowSetByte z 0 0x98) 1 0x3A      -- voltage 15000
  let b := shadowSetByte (shadowSetByte a 2 0xB8) 3 0x0B      -- current limit 3000
  let c := shadowSetByte b OFF_PREAMBLE 17
  let d := shadowSetByte c OFF_BIT1 58
  let e := shadowSetByte d OFF_BIT0 100
  let f := shadowSetByte (shadowSetByte e 10 0x88) 11 0x13    -- short circuit 5000
  let g := shadowSetByte (shadowSetByte f OFF_BIDI_DAC 0xD2) 13 0x01  -- bidi dac 466
  let h := shadowSetByte (shadowSetByte (shadowSetByte (shadowSetByte g 16 0x64) 17 0x01) 18 0xA8) 19 0xC0  -- ip 192.168.1.100 LE
  let i := shadowSetByte (shadowSetByte (shadowSetByte (shadowSetByte h 20 0x00) 21 0xFF) 22 0xFF) 23 0xFF  -- subnet LE
  let j := shadowSetByte (shadowSetByte (shadowSetByte (shadowSetByte i 24 0x01) 25 0x01) 26 0xA8) 27 0xC0  -- gateway LE
  let k := shadowSetByte (shadowSetByte j 28 0x00) 29 0x0A    -- port 2560
  let l := shadowSetByte k 32 0x01                            -- device id 1
  let m := shadowSetByte (shadowSetByte (shadowSetByte l 36 0x00) 37 0xC2) 38 0x01  -- baud 115200 LE
  let n := shadowSetByte m 40 0x02                            -- debug level 2
  { n with modified := true }

/-- parameter_manager_init(force_defaults = 1): loads defaults and marks
the manager initialized (the force path of the C function; restoration
from flash is exercised separately through parameter_manager_restore). -/
def parameter_manager_init_forced (s : PMState) : PMState :=
  { load_defaults { s with initialized := true } with modified := false }

/-- The freshly initialized parameter-manager state used as a concrete
test state. -/
def defaultPMState : PMState :=
  parameter_manager_init_forced { initialized := false, modified := false, shadow := [] }

/-- A flash image whose payload has exactly one bit flipped: bit t of
byte p. -/
def flipPayloadBit (fl : FlashStorage) (p t : Nat) : FlashStorage :=
  { fl with data := fl.data.set p (fl.data.getD p 0 ^^^ 2 ^ t) }

/-! ## Bitwise xor algebra used by the CRC proofs -/

theorem shiftRight_xor_distrib (x y n : Nat) :
    (x ^^^ y) >>> n = (x >>> n) ^^^ (y >>> n) := by
  apply Nat.eq_of_testBit_eq
  intro i
  simp [Nat.testBit_shiftRight, Nat.testBit_xor]

theorem and_xor_distrib (x y m : Nat) :
    (x ^^^ y) &&& m = (x &&& m) ^^^ (y &&& m) := by
  apply Nat.eq_of_testBit_eq
  intro i
  simp only [Nat.testBit_and, Nat.testBit_xor]
  cases x.testBit i <;> cases y.testBit i <;> cases m.testBit i <;> rfl

theorem and_255_eq_mod (x : Nat) : x &&& 255 = x % 256 := by
  have h := Nat.and_pow_two_sub_one_eq_mod x 8
  norm_num at h
  exact h

theorem xor_mod_two_pow (x y n : Nat) :
    (x ^^^ y) % 2 ^ n = (x % 2 ^ n) ^^^ (y % 2 ^ n) := by
  rw [← Nat.and_pow_two_sub_one_eq_mod, ← Nat.and_pow_two_sub_one_eq_mod,
    ← Nat.and_pow_two_sub_one_eq_mod]
  exact and_xor_distrib x y (2 ^ n - 1)

theorem nat_xor_decompose (x : Nat) : x = (x % 256) ^^^ 256 * (x >>> 8) := by
  apply Nat.eq_of_testBit_eq
  intro i
  rw [Nat.testBit_xor]
  have h256 : 256 * (x >>> 8) = (x >>> 8) <<< 8 := by
    rw [Nat.shiftLeft_eq]
    ring
  by_cases hi : i < 8
  · have hhigh : (256 * (x >>> 8)).testBit i = false := by
      rw [h256, Nat.testBit_shiftLeft]
      have : ¬ i ≥ 8 := by omega
      simp [this]
    have hlow : (x % 256).testBit i = x.testBit i := by
      rw [show (256 : Nat) = 2 ^ 8 from rfl, Nat.testBit_mod_two_pow]
      simp [hi]
    rw [hlow, hhigh]
    cases x.testBit i <;> rfl
  · have hlow : (x % 256).testBit i = false := by
      rw [show (256 : Nat) = 2 ^ 8 from rfl, Nat.testBit_mod_two_pow]
      simp
      omega
    have hhigh : (256 * (x >>> 8)).testBit i = x.testBit i := by
      rw [h256, Nat.testBit_shiftLeft, Nat.testBit_shiftRight]
      have h8 : i ≥ 8 := by omega
      have hd : (decide (i ≥ 8)) = true := by simp [h8]
      rw [hd, Bool.true_and]
      congr 1
      omega
    rw [hlow, hhigh]
    cases x.testBit i <;> rfl

theorem xor_rearrange (a b c d : Nat) :
    (a ^^^ b) ^^^ (c ^^^ d) = (a ^^^ c) ^^^ (b ^^^ d) := by
  apply Nat.eq_of_testBit_eq
  intro i
  simp only [Nat.testBit_xor]
  cases a.testBit i <;> cases b.testBit i <;> cases c.testBit i <;>
    cases d.testBit i <;> rfl

theorem xor_left_comm (a b c : Nat) : a ^^^ (b ^^^ c) = b ^^^ (a ^^^ c) := by
  rw [← Nat.xor_assoc, Nat.xor_comm a b, Nat.xor_assoc]

/-! ## The table-driven CRC agrees with the reference definition -/

theorem crcBitRef_xor (x y : Nat) :
    crcBitRef (x ^^^ y) = crcBitRef x ^^^ crcBitRef y := by
  unfold crcBitRef
  have hxy : (x ^^^ y) % 2 = (x % 2) ^^^ (y % 2) := xor_mod_two_pow x y 1
  rw [shiftRight_xor_distrib, hxy]
  rcases Nat.mod_two_eq_zero_or_one x with hx | hx <;>
    rcases Nat.mod_two_eq_zero_or_one y with hy | hy <;>
      simp [hx, hy, Nat.xor_assoc, Nat.xor_comm, xor_left_comm]

theorem crcBits8_xor (x y : Nat) :
    crcBits8 (x ^^^ y) = crcBits8 x ^^^ crcBits8 y := by
  unfold crcBits8
  rw [crcBitRef_xor, crcBitRef_xor, crcBitRef_xor, crcBitRef_xor,
    crcBitRef_xor, crcBitRef_xor, crcBitRef_xor, crcBitRef_xor]

theorem crcBitRef_even (x : Nat) : crcBitRef (2 * x) = x := by
  unfold crcBitRef
  have h1 : (2 * x) >>> 1 = x := by
    rw [Nat.shiftRight_eq_div_pow]
    omega
  have h2 : (2 * x) % 2 = 0 := by omega
  simp [h1, h2]

theorem crcBits8_mul256 (h : Nat) : crcBits8 (256 * h) = h := by
  unfold crcBits8
  rw [show 256 * h = 2 * (2 * (2 * (2 * (2 * (2 * (2 * (2 * h))))))) by ring]
  rw [crcBitRef_even, crcBitRef_even, crcBitRef_even, crcBitRef_even,
    crcBitRef_even, crcBitRef_even, crcBitRef_even, crcBitRef_even]

theorem crcByteRef_split (c b : Nat) (hb : b < 256) :
    crcByteRef c b = (c >>> 8) ^^^ crcBits8 ((c ^^^ b) &&& 0xFF) := by
  unfold crcByteRef
  have hmask : (c ^^^ b) &&& 0xFF = (c ^^^ b) % 256 := and_255_eq_mod (c ^^^ b)
  have hshift : (c ^^^ b) >>> 8 = c >>> 8 := by
    rw [shiftRight_xor_distrib]
    have : b >>> 8 = 0 := by
      rw [Nat.shiftRight_eq_div_pow]
      omega
    simp [this]
  calc crcBits8 (c ^^^ b)
      = crcBits8 (((c ^^^ b) % 256) ^^^ 256 * ((c ^^^ b) >>> 8)) := by
        rw [← nat_xor_decompose]
    _ = crcBits8 ((c ^^^ b) % 256) ^^^ crcBits8 (256 * ((c ^^^ b) >>> 8)) :=
        crcBits8_xor _ _
    _ = crcBits8 ((c ^^^ b) % 256) ^^^ (c >>> 8) := by
        rw [crcBits8_mul256, hshift]
    _ = (c >>> 8) ^^^ crcBits8 ((c ^^^ b) &&& 0xFF) := by
        rw [hmask, Nat.xor_comm]

set_option maxRecDepth 20000 in
theorem crc32_table_eq_ref : ∀ i < 256, crc32_table.getD i 0 = crcBits8 i := by
  decide

theorem crcStep_eq_ref (c b : Nat) (hb : b < 256) :
    crcStep c b = crcByteRef c b := by
  rw [crcByteRef_split c b hb]
  unfold crcStep
  have hlt : (c ^^^ b) &&& 0xFF < 256 := by
    rw [and_255_eq_mod]
    omega
  rw [crc32_table_eq_ref _ hlt]

theorem crcFold_eq_ref (d : List Nat) (hb : ∀ b ∈ d, b < 256) (c : Nat) :
    crcFold c d = d.foldl crcByteRef c := by
  induction d generalizing c with
  | nil => rfl
  | cons x xs ih =>
    have hx : x < 256 := hb x (List.mem_cons_self x xs)
    have hxs : ∀ b ∈ xs, b < 256 := fun b hbm => hb b (List.mem_cons_of_mem x hbm)
    simp only [crcFold, List.foldl_cons]
    rw [show List.foldl crcStep (crcStep c x) xs = crcFold (crcStep c x) xs from rfl,
      ih hxs, crcStep_eq_ref c x hx]

/-- The table-driven calculate_crc32 agrees with the reference reflected
CRC-32 on every byte list accepted by its guard. -/
theorem calculate_crc32_eq_reference (d : List Nat)
    (hb : ∀ b ∈ d, b < 256) (h0 : d.length ≠ 0) (h512 : d.length ≤ PARAM_DATA_SIZE) :
    calculate_crc32 d = crc32_reference d := by
  unfold calculate_crc32 crc32_reference
  rw [if_neg (by omega)]
  rw [crcFold_eq_ref d hb]

/-! ## CRC-32 detects every single-bit payload error -/

theorem crcStep_linear (c1 c2 b1 b2 : Nat) :
    crcStep (c1 ^^^ c2) (b1 ^^^ b2) = crcStep c1 b1 ^^^ crcStep c2 b2 := by
  unfold crcStep
  have hidx : ((c1 ^^^ c2) ^^^ (b1 ^^^ b2)) &&& 0xFF
      = ((c1 ^^^ b1) &&& 0xFF) ^^^ ((c2 ^^^ b2) &&& 0xFF) := by
    rw [show (c1 ^^^ c2) ^^^ (b1 ^^^ b2) = (c1 ^^^ b1) ^^^ (c2 ^^^ b2) from
      xor_rearrange c1 c2 b1 b2]
    exact and_xor_distrib _ _ _
  have hm1 : (c1 ^^^ b1) &&& 0xFF < 256 := by
    rw [and_255_eq_mod]; omega
  have hm2 : (c2 ^^^ b2) &&& 0xFF < 256 := by
    rw [and_255_eq_mod]; omega
  have hxlt : ((c1 ^^^ b1) &&& 0xFF) ^^^ ((c2 ^^^ b2) &&& 0xFF) < 256 :=
    Nat.xor_lt_two_pow (n := 8) hm1 hm2
  rw [hidx, shiftRight_xor_distrib]
  rw [crc32_table_eq_ref _ hxlt, crc32_table_eq_ref _ hm1, crc32_table_eq_ref _ hm2]
  rw [crcBits8_xor]
  exact xor_rearrange _ _ _ _

/-- Pointwise xor of two byte lists. -/
def zipXor (d1 d2 : List Nat) : List Nat :=
  List.zipWith (fun a b => a ^^^ b) d1 d2

theorem crcFold_linear (d1 d2 : List Nat) (hlen : d1.length = d2.length)
    (c1 c2 : Nat) :
    crcFold (c1 ^^^ c2) (zipXor d1 d2) = crcFold c1 d1 ^^^ crcFold c2 d2 := by
  induction d1 generalizing d2 c1 c2 with
  | nil =>
    cases d2 with
    | nil => rfl
    | cons y ys => simp at hlen
  | cons x xs ih =>
    cases d2 with
    | nil => simp at hlen
    | cons y ys =>
      simp only [zipXor, List.zipWith, crcFold, List.foldl_cons]
      have h : xs.length = ys.length := by simpa using hlen
      rw [show List.foldl crcStep (crcStep (c1 ^^^ c2) (x ^^^ y))
          (List.zipWith (fun a b => a ^^^ b) xs ys)
          = crcFold (crcStep (c1 ^^^ c2) (x ^^^ y)) (zipXor xs ys) from rfl]
      rw [crcStep_linear c1 c2 x y]
      exact ih ys h _ _

theorem crcStep_zero_zero : crcStep 0 0 = 0 := by decide

theorem crcFold_zero_replicate (m : Nat) :
    crcFold 0 (List.replicate m 0) = 0 := by
  induction m with
  | zero => rfl
  | succ n ih =>
    simp only [List.replicate, crcFold, List.foldl_cons, crcStep_zero_zero]
    exact ih

set_option maxRecDepth 20000 in
theorem crc32_table_lt : ∀ i < 256, crc32_table.getD i 0 < 2 ^ 32 := by decide

set_option maxRecDepth 20000 in
theorem crc32_table_high : ∀ i < 256, 0 < i → 2 ^ 24 ≤ crc32_table.getD i 0 := by
  decide

theorem crcStep_lt (c b : Nat) (hc : c < 2 ^ 32) : crcStep c b < 2 ^ 32 := by
  unfold crcStep
  have h1 : c >>> 8 < 2 ^ 32 := by
    rw [Nat.shiftRight_eq_div_pow]
    omega
  have h2 : (c ^^^ b) &&& 0xFF < 256 := by
    rw [and_255_eq_mod]; omega
  exact Nat.xor_lt_two_pow (n := 32) h1 (crc32_table_lt _ h2)

theorem crcStep_zero_ne (c : Nat) (hpos : 0 < c) (hc : c < 2 ^ 32) :
    crcStep c 0 ≠ 0 := by
  unfold crcStep
  intro h
  have heq : c >>> 8 = crc32_table.getD ((c ^^^ 0) &&& 0xFF) 0 := Nat.xor_eq_zero.mp h
  have hmask : (c ^^^ 0) &&& 0xFF = c % 256 := by
    rw [Nat.xor_zero, and_255_eq_mod]
  rw [hmask] at heq
  have hdiv : c >>> 8 = c / 256 := Nat.shiftRight_eq_div_pow c 8
  by_cases hz : c % 256 = 0
  · rw [hz] at heq
    have : crc32_table.getD 0 0 = 0 := by decide
    rw [this] at heq
    rw [hdiv] at heq
    omega
  · have hge : 2 ^ 24 ≤ crc32_table.getD (c % 256) 0 :=
      crc32_table_high _ (Nat.mod_lt c (by omega)) (Nat.pos_of_ne_zero hz)
    have hlt : c / 256 < 2 ^ 24 := by omega
    rw [hdiv] at heq
    omega

theorem crcFold_replicate_ne (m : Nat) :
    ∀ c, 0 < c → c < 2 ^ 32 → crcFold c (List.replicate m 0) ≠ 0 := by
  induction m with
  | zero =>
    intro c hpos _ h
    simp only [List.replicate, crcFold, List.foldl_nil] at h
    omega
  | succ n ih =>
    intro c hpos hlt
    simp only [List.replicate, crcFold, List.foldl_cons]
    have hne := crcStep_zero_ne c hpos hlt
    have hlt2 := crcStep_lt c 0 hlt
    exact ih (crcStep c 0) (Nat.pos_of_ne_zero hne) hlt2

/-- The single-bit error byte stream: zeros except value e at index p. -/
def errVec (p : Nat) (e : Nat) (len : Nat) : List Nat :=
  List.replicate p 0 ++ e :: List.replicate (len - p - 1) 0

theorem errVec_length (p e len : Nat) (hp : p < len) :
    (errVec p e len).length = len := by
  simp [errVec]
  omega

theorem errVec_zero (e len : Nat) : errVec 0 e (len + 1) = e :: List.replicate len 0 := by
  unfold errVec
  rw [show len + 1 - 0 - 1 = len by omega]
  rfl

theorem errVec_succ (q e len : Nat) : errVec (q + 1) e (len + 1) = 0 :: errVec q e len := by
  unfold errVec
  rw [show len + 1 - (q + 1) - 1 = len - q - 1 by omega]
  rfl

theorem zipXor_zero_right (d : List Nat) : zipXor d (List.replicate d.length 0) = d := by
  induction d with
  | nil => rfl
  | cons x xs ih =>
    show (x ^^^ 0) :: zipXor xs (List.replicate xs.length 0) = x :: xs
    rw [Nat.xor_zero, ih]

theorem zipXor_self_errVec (d : List Nat) (p e : Nat) (hp : p < d.length) :
    zipXor d (errVec p e d.length) = d.set p (d.getD p 0 ^^^ e) := by
  induction d generalizing p with
  | nil => simp at hp
  | cons x xs ih =>
    cases p with
    | zero =>
      show zipXor (x :: xs) (errVec 0 e (xs.length + 1)) = (x ^^^ e) :: xs
      rw [errVec_zero]
      show (x ^^^ e) :: zipXor xs (List.replicate xs.length 0) = (x ^^^ e) :: xs
      rw [zipXor_zero_right]
    | succ q =>
      have hq : q < xs.length := by simpa using hp
      show zipXor (x :: xs) (errVec (q + 1) e (xs.length + 1))
        = x :: xs.set q (xs.getD q 0 ^^^ e)
      rw [errVec_succ]
      show (x ^^^ 0) :: zipXor xs (errVec q e xs.length)
        = x :: xs.set q (xs.getD q 0 ^^^ e)
      rw [Nat.xor_zero, ih q hq]

theorem crcFold_errVec (c : Nat) (p t len : Nat) (hp : p < len) (ht : t < 8) :
    crcFold c (zipXor (List.replicate len 0) (errVec p (2 ^ t) len))
      = crcFold c (List.replicate len 0) ^^^
        crcFold 0 (errVec p (2 ^ t) len) := by
  have h := crcFold_linear (List.replicate len 0) (errVec p (2 ^ t) len)
    (by rw [List.length_replicate, errVec_length p _ len hp]) c 0
  rw [Nat.xor_zero] at h
  exact h

theorem crcFold_errVec_ne_zero (p t len : Nat) (hp : p < len) (ht : t < 8) :
    crcFold 0 (errVec p (2 ^ t) len) ≠ 0 := by
  unfold errVec
  rw [show crcFold 0 (List.replicate p 0 ++ 2 ^ t :: List.replicate (len - p - 1) 0)
      = List.foldl crcStep
          (crcStep (crcFold 0 (List.replicate p 0)) (2 ^ t))
          (List.replicate (len - p - 1) 0) by
    simp [crcFold, List.foldl_append]]
  rw [crcFold_zero_replicate p]
  have hstep : crcStep 0 (2 ^ t) = crc32_table.getD (2 ^ t) 0 := by
    unfold crcStep
    have h1 : (0 : Nat) >>> 8 = 0 := rfl
    have h2 : ((0 : Nat) ^^^ 2 ^ t) &&& 0xFF = 2 ^ t := by
      rw [Nat.zero_xor, and_255_eq_mod]
      have hlt256 : (2 : Nat) ^ t < 256 := by
        calc (2:Nat) ^ t < 2 ^ 8 := Nat.pow_lt_pow_right (by omega) ht
        _ = 256 := by norm_num
      exact Nat.mod_eq_of_lt hlt256
    rw [h1, h2, Nat.zero_xor]
  have hpos : 0 < crc32_table.getD (2 ^ t) 0 := by
    interval_cases t <;> decide
  have hlt : crc32_table.getD (2 ^ t) 0 < 2 ^ 32 := by
    interval_cases t <;> decide
  rw [hstep]
  exact crcFold_replicate_ne (len - p - 1) _ hpos hlt

theorem crcFold_set_ne (d : List Nat) (c : Nat) (p t : Nat)
    (hp : p < d.length) (ht : t < 8) :
    crcFold c (d.set p (d.getD p 0 ^^^ 2 ^ t)) ≠ crcFold c d := by
  have hzip : d.set p (d.getD p 0 ^^^ 2 ^ t) = zipXor d (errVec p (2 ^ t) d.length) :=
    (zipXor_self_errVec d p (2 ^ t) hp).symm
  have hlin := crcFold_linear d (errVec p (2 ^ t) d.length)
    (by rw [errVec_length p _ _ hp]) c 0
  rw [Nat.xor_zero] at hlin
  rw [hzip, hlin]
  intro h
  have := crcFold_errVec_ne_zero p t d.length hp ht
  have hcancel : crcFold c d ^^^ crcFold 0 (errVec p (2 ^ t) d.length)
      = crcFold c d ^^^ 0 := by rw [Nat.xor_zero]; exact h
  have : crcFold 0 (errVec p (2 ^ t) d.length) = 0 := by
    have h2 := congrArg (fun z => crcFold c d ^^^ z)
      (rfl : crcFold 0 (errVec p (2 ^ t) d.length) = crcFold 0 (errVec p (2 ^ t) d.length))
    calc crcFold 0 (errVec p (2 ^ t) d.length)
        = crcFold c d ^^^ (crcFold c d ^^^ crcFold 0 (errVec p (2 ^ t) d.length)) := by
          rw [← Nat.xor_assoc, Nat.xor_self, Nat.zero_xor]
      _ = crcFold c d ^^^ (crcFold c d ^^^ 0) := by rw [hcancel]
      _ = 0 := by rw [Nat.xor_zero, Nat.xor_self]
  exact (crcFold_errVec_ne_zero p t d.length hp ht) this

theorem calculate_crc32_flip_ne (d : List Nat) (p t : Nat)
    (hlen : d.length = PARAM_DATA_SIZE) (hp : p < PARAM_DATA_SIZE) (ht : t < 8) :
    calculate_crc32 (d.set p (d.getD p 0 ^^^ 2 ^ t)) ≠ calculate_crc32 d := by
  unfold calculate_crc32
  rw [List.length_set, hlen]
  have hguard : ¬ (PARAM_DATA_SIZE = 0 ∨ PARAM_DATA_SIZE > PARAM_DATA_SIZE) := by
    unfold PARAM_DATA_SIZE
    omega
  rw [if_neg hguard, if_neg hguard]
  intro h
  have hfold : crcFold 0xFFFFFFFF (d.set p (d.getD p 0 ^^^ 2 ^ t))
      = crcFold 0xFFFFFFFF d := by
    have hx := congrArg (fun z => z ^^^ 0xFFFFFFFF) h
    simpa [Nat.xor_assoc, Nat.xor_self, Nat.xor_zero] using hx
  exact crcFold_set_ne d 0xFFFFFFFF p t (by omega) ht hfold

/-! ## List access helper lemmas -/

theorem getD_set_self (l : List Nat) (i v : Nat) (h : i < l.length) :
    (l.set i v).getD i 0 = v := by
  induction l generalizing i with
  | nil => simp at h
  | cons x xs ih =>
    cases i with
    | zero => rfl
    | succ j =>
      have hj : j < xs.length := by simpa using h
      show (xs.set j v).getD j 0 = v
      exact ih j hj

theorem getD_set_other (l : List Nat) (i j v : Nat) (h : i ≠ j) :
    (l.set i v).getD j 0 = l.getD j 0 := by
  induction l generalizing i j with
  | nil => rfl
  | cons x xs ih =>
    cases i with
    | zero =>
      cases j with
      | zero => exact absurd rfl h
      | succ k => rfl
    | succ i2 =>
      cases j with
      | zero => rfl
      | succ k =>
        show (xs.set i2 v).getD k 0 = xs.getD k 0
        exact ih i2 k (by omega)

/-! ## The timing snapshot taken when the command station starts -/

/-- The TimingConfig values CommandStationThread reads through the
parameter-manager getters when the start semaphore is released, passed
verbatim to command_station.init. -/
structure TimingConfig where
  num_preamble : Nat
  bit1_duration : Nat
  bit0_duration : Nat
  bidi : Bool
deriving Repr, DecidableEq

/-- The snapshot CommandStationThread takes at start (SUSI_master.c,
CommandStationThread): reads preamble bits, bit durations and the BiDi
flag from the parameter manager and hands them to command_station.init
without any range check. -/
def csStartSnapshot (s : PMState) : TimingConfig :=
  { num_preamble := get_dcc_preamble_bits s
    bit1_duration := get_dcc_bit1_duration s
    bit0_duration := get_dcc_bit0_duration s
    bidi := get_dcc_bidi_enable s ≠ 0 }

/-! ## Claim theorems for the parameter manager -/

/-- C2: a successful parameter_manager_save followed by a
parameter_manager_restore with no intervening flash write succeeds and
makes the RAM shadow byte-for-byte equal to its contents at save time;
in particular every TimingConfig field (preamble bits, bit1/bit0
durations, bidi enable, bidi dac, trigger_first_bit) round-trips through
flash unchanged. -/
theorem save_then_restore_roundtrip (s s2 : PMState) (fl : FlashStorage)
    (hsave : (parameter_manager_save s).2.1 = some fl)
    (hs2 : s2.initialized = true) :
    (parameter_manager_save s).1 = 0 ∧
    parameter_manager_restore fl s2
      = (0, { s2 with shadow := s.shadow, modified := false }) ∧
    (parameter_manager_restore fl s2).2.shadow = s.shadow ∧
    get_dcc_preamble_bits (parameter_manager_restore fl s2).2
      = get_dcc_preamble_bits s ∧
    get_dcc_bit1_duration (parameter_manager_restore fl s2).2
      = get_dcc_bit1_duration s ∧
    get_dcc_bit0_duration (parameter_manager_restore fl s2).2
      = get_dcc_bit0_duration s ∧
    get_dcc_bidi_enable (parameter_manager_restore fl s2).2
      = get_dcc_bidi_enable s ∧
    get_dcc_bidi_dac (parameter_manager_restore fl s2).2
      = get_dcc_bidi_dac s ∧
    get_dcc_trigger_first_bit (parameter_manager_restore fl s2).2
      = get_dcc_trigger_first_bit s := by
  cases hb : s.initialized with
  | false =>
    rw [parameter_manager_save] at hsave
    simp [hb] at hsave
  | true =>
    rw [parameter_manager_save] at hsave
    simp only [hb, not_true_eq_false, ite_false, reduceIte,
      Option.some.injEq] at hsave
    have hfl : fl = savedImage s := hsave.symm
    subst hfl
    have hrestore : parameter_manager_restore (savedImage s) s2
        = (0, { s2 with shadow := s.shadow, modified := false }) := by
      rw [parameter_manager_restore]
      simp [hs2, savedImage]
    refine ⟨?_, hrestore, ?_, ?_, ?_, ?_, ?_, ?_, ?_⟩ <;>
      simp [parameter_manager_save, hb, hrestore, get_dcc_preamble_bits,
        get_dcc_bit1_duration, get_dcc_bit0_duration, get_dcc_bidi_enable,
        get_dcc_bidi_dac, get_dcc_trigger_first_bit, shadowGetByte]

/-- C4: parameter_manager_restore copies the flash payload into the RAM
shadow exactly when magic, version, stored size and CRC all check out;
on any failed check it returns -1 and leaves the RAM shadow (indeed the
whole RAM state) unchanged. -/
theorem restore_copies_iff_header_checks (fl : FlashStorage) (s : PMState)
    (hinit : s.initialized = true) :
    ((parameter_manager_restore fl s).1 = 0 ↔
      (fl.magic = MAGIC_NUMBER ∧ fl.version = VERSION ∧
       fl.dataSize = PARAM_DATA_SIZE ∧ calculate_crc32 fl.data = fl.crc32)) ∧
    ((parameter_manager_restore fl s).1 = 0 →
      (parameter_manager_restore fl s).2
        = { s with shadow := fl.data, modified := false }) ∧
    ((parameter_manager_restore fl s).1 ≠ 0 →
      (parameter_manager_restore fl s).1 = -1 ∧
      (parameter_manager_restore fl s).2 = s) := by
  rw [parameter_manager_restore]
  simp only [hinit, Bool.true_eq_false, not_true_eq_false, not_false_eq_true,
    ite_false, reduceIte]
  split_ifs with h1 h2 h3 h4 <;> simp_all

/-- C3: flipping any single bit of the 512-byte payload of a flash image
produced by a successful save makes the next restore fail with -1 at the
CRC comparison (all three header checks still pass, the recomputed CRC
differs from the stored one), leaving the RAM state unchanged; and the
table-driven CRC implementation equals the reference reflected CRC-32
(poly 0xEDB88320, init 0xFFFFFFFF, final XOR 0xFFFFFFFF) over the
payload. -/
theorem restore_rejects_single_bit_flip (s s2 : PMState) (fl : FlashStorage)
    (p t : Nat)
    (hsave : (parameter_manager_save s).2.1 = some fl)
    (hlen : s.shadow.length = PARAM_DATA_SIZE)
    (hp : p < PARAM_DATA_SIZE) (ht : t < 8)
    (hs2 : s2.initialized = true) :
    (flipPayloadBit fl p t).magic = MAGIC_NUMBER ∧
    (flipPayloadBit fl p t).version = VERSION ∧
    (flipPayloadBit fl p t).dataSize = PARAM_DATA_SIZE ∧
    calculate_crc32 (flipPayloadBit fl p t).data ≠ (flipPayloadBit fl p t).crc32 ∧
    parameter_manager_restore (flipPayloadBit fl p t) s2 = (-1, s2) ∧
    (∀ d : List Nat, (∀ b ∈ d, b < 256) → d.length ≠ 0 →
      d.length ≤ PARAM_DATA_SIZE → calculate_crc32 d = crc32_reference d) := by
  cases hb : s.initialized with
  | false =>
    rw [parameter_manager_save] at hsave
    simp [hb] at hsave
  | true =>
    rw [parameter_manager_save] at hsave
    simp only [hb, not_true_eq_false, ite_false, reduceIte,
      Option.some.injEq] at hsave
    have hfl : fl = savedImage s := hsave.symm
    subst hfl
    have hcrcne : calculate_crc32 (s.shadow.set p (s.shadow.getD p 0 ^^^ 2 ^ t))
        ≠ calculate_crc32 s.shadow :=
      calculate_crc32_flip_ne s.shadow p t hlen hp ht
    have hcrcne2 : calculate_crc32 (s.shadow.set p (s.shadow[p]?.getD 0 ^^^ 2 ^ t))
        ≠ calculate_crc32 s.shadow := by
      simpa [List.getD] using hcrcne
    refine ⟨rfl, rfl, rfl, hcrcne, ?_, ?_⟩
    · rw [parameter_manager_restore]
      simp [hs2, flipPayloadBit, savedImage, hcrcne2]
    · intro d hbyte h0 h512
      exact calculate_crc32_eq_reference d hbyte h0 h512

/-- C6 counterexample: the value 200, outside the documented 55..61
window for bit1_duration, is accepted by set_dcc_bit1_duration (returns
0) on the freshly initialized parameter manager, and the snapshot the
command station takes at start carries 200 into the timing engine. -/
theorem bit1_out_of_range_accepted :
    (set_dcc_bit1_duration 200 defaultPMState).1 = 0 ∧
    (csStartSnapshot (set_dcc_bit1_duration 200 defaultPMState).2).bit1_duration
      = 200 ∧
    ¬ (55 ≤ 200 ∧ 200 ≤ 61) := by
  refine ⟨by decide, by decide, by decide⟩

/-- C6 (amended): the parameter-manager setters perform no range
validation; any byte value written through set_dcc_preamble_bits,
set_dcc_bit1_duration or set_dcc_bit0_duration is stored successfully
and the command-station start snapshot passes it verbatim into the
timing engine configuration. -/
theorem setters_unvalidated_reach_snapshot (s : PMState) (v : Nat)
    (hinit : s.initialized = true)
    (hlen : s.shadow.length = PARAM_DATA_SIZE) (hv : v < 256) :
    (set_dcc_bit1_duration v s).1 = 0 ∧
    (csStartSnapshot (set_dcc_bit1_duration v s).2).bit1_duration = v ∧
    (set_dcc_bit0_duration v s).1 = 0 ∧
    (csStartSnapshot (set_dcc_bit0_duration v s).2).bit0_duration = v ∧
    (set_dcc_preamble_bits v s).1 = 0 ∧
    (csStartSnapshot (set_dcc_preamble_bits v s).2).num_preamble = v := by
  have hv256 : v % 256 = v := Nat.mod_eq_of_lt hv
  refine ⟨?_, ?_, ?_, ?_, ?_, ?_⟩ <;>
    simp [set_dcc_bit1_duration, set_dcc_bit0_duration, set_dcc_preamble_bits,
      hinit, csStartSnapshot, get_dcc_bit1_duration, get_dcc_bit0_duration,
      get_dcc_preamble_bits, shadowGetByte, shadowSetByte, OFF_BIT1, OFF_BIT0,
      OFF_PREAMBLE, hv256, getD_set_self, hlen, PARAM_DATA_SIZE]

/-! ## Command station control state (SUSI_master.c, canonical variant
with loop modes 0..3, the zero-bit override map and the custom packet
slot) -/

/-- Maximum DCC packet byte count accepted by the custom packet slot
(the load handler reports valid lengths as 1..18). -/
def DCC_MAX_PACKET_SIZE : Nat := 18

/-- The static control variables of the command station translation
unit: commandStationRunning, commandStationLoop, the RAM-only zero-bit
override map (zerobitOverrideMask, zerobitDeltaP, zerobitDeltaN), the
scope-trigger flag, the BiDi DAC value and the custom packet slot. -/
structure CSState where
  running : Bool
  loop : Nat
  zerobitOverrideMask : Nat
  zerobitDeltaP : Int
  zerobitDeltaN : Int
  trigger_first_bit : Bool
  dac_value : Nat
  customPacket : List Nat
  customPacketLoaded : Bool
  customPacketTrigger : Bool
  customPacketCount : Nat
  customPacketDelay : Nat
deriving Repr, DecidableEq

/-- The static initialisers of the translation unit: the command-station
state of a fresh boot. -/
def freshBootCS : CSState :=
  { running := false
    loop := 0
    zerobitOverrideMask := 0
    zerobitDeltaP := 0
    zerobitDeltaN := 0
    trigger_first_bit := false
    dac_value := 0
    customPacket := []
    customPacketLoaded := false
    customPacketTrigger := false
    customPacketCount := 1
    customPacketDelay := 100 }

/-- Modelled from the spec: the Bool-returning CommandStation_Start
declared in command_station.h has no definition under src (the
translation units there return void); per the header comment and spec
section 4.E it returns false if already running, else stores the loop
selector, releases the start gate — after which the task marks the
station running — and returns true.  The state transition follows the
void CommandStation_Start in SUSI_master.c. -/
def CommandStation_Start (l : Nat) (s : CSState) : Bool × CSState :=
  if ¬ s.running then (true, { s with loop := l % 256, running := true })
  else (false, s)

/-- Modelled from the spec: the Bool-returning CommandStation_Stop
declared in command_station.h has no definition under src; per the
header comment and spec section 4.E it returns false if not running,
else clears the running flag and returns true.  The state transition
follows the void CommandStation_Stop in SUSI_master.c, which clears
commandStationRunning and drives BR_ENABLE low — and touches nothing
else. -/
def CommandStation_Stop (s : CSState) : Bool × CSState :=
  if s.running then (true, { s with running := false })
  else (false, s)

/-- CommandStation_LoadCustomPacket (SUSI_master.c): rejects empty or
oversized byte arrays, otherwise fills the slot, marks it loaded and
disarms any pending trigger. -/
def CommandStation_LoadCustomPacket (bytes : List Nat) (s : CSState) :
    Bool × CSState :=
  if bytes.length = 0 ∨ bytes.length > DCC_MAX_PACKET_SIZE then (false, s)
  else (true, { s with customPacket := bytes, customPacketLoaded := true,
                       customPacketTrigger := false })

/-- CommandStation_TriggerTransmit (SUSI_master.c): arms the custom
packet slot only when a packet has been loaded; with an empty slot it is
a no-op and reports nothing to the caller. -/
def CommandStation_TriggerTransmit (count delay_ms : Nat) (s : CSState) : CSState :=
  if s.customPacketLoaded then
    { s with customPacketCount := if count > 0 then count else 1
             customPacketDelay := delay_ms
             customPacketTrigger := true }
  else s

/-- Modelled from the spec: CommandStation_SetZerobitOverrideMask is
declared in command_station.h but has no definition under src; it stores
the RAM-only override mask (spec section 3, OverrideMap). -/
def CommandStation_SetZerobitOverrideMask (mask : Nat) (s : CSState) : CSState :=
  { s with zerobitOverrideMask := mask % 2 ^ 64 }

/-- Modelled from the spec: CommandStation_SetZerobitDeltaP, declared in
command_station.h with no definition under src; stores the positive
phase delta of the override map. -/
def CommandStation_SetZerobitDeltaP (delta : Int) (s : CSState) : CSState :=
  { s with zerobitDeltaP := delta }

/-- Modelled from the spec: CommandStation_SetZerobitDeltaN, declared in
command_station.h with no definition under src; stores the negative
phase delta of the override map. -/
def CommandStation_SetZerobitDeltaN (delta : Int) (s : CSState) : CSState :=
  { s with zerobitDeltaN := delta }

/-! ## RPC handlers (src/unnamed/part_015) -/

/-- A JSON-RPC response reduced to the fields the claims speak about:
the status flag and the message text. -/
structure RpcResp where
  ok : Bool
  message : String
deriving Repr, DecidableEq

/-- The shapes of the optional loop parameter distinguished by
command_station_start_handler: absent, a JSON unsigned number (read via
get of uint8_t, truncating modulo 256), a JSON boolean, or any other
JSON type. -/
inductive LoopParam where
  | absent
  | unsigned (n : Nat)
  | boolean (b : Bool)
  | otherType
deriving Repr, DecidableEq

/-- The tail of command_station_start_handler after parameter
validation: calls CommandStation_Start and maps the Bool outcome to the
ok or already-running response. -/
def startResponse (l : Nat) (s : CSState) : RpcResp × CSState :=
  let r := CommandStation_Start l s
  if ¬ r.1 then ({ ok := false, message := "Command station is already running" }, r.2)
  else ({ ok := true, message := "Command station started" }, r.2)

/-- command_station_start_handler: validates the optional loop selector
(unsigned 0..3, or a boolean for backwards compatibility, defaulting to
0 when absent) and starts the command station. -/
def command_station_start_handler (p : LoopParam) (s : CSState) : RpcResp × CSState :=
  match p with
  | .otherType =>
      ({ ok := false, message := "loop must be a number (0-3) or boolean" }, s)
  | .unsigned n =>
      if n % 256 > 3 then ({ ok := false, message := "loop must be 0, 1, 2, or 3" }, s)
      else startResponse (n % 256) s
  | .boolean b => startResponse (if b then 1 else 0) s
  | .absent => startResponse 0 s

/-- command_station_stop_handler: stops the command station, reporting
an error when it is not running. -/
def command_station_stop_handler (s : CSState) : RpcResp × CSState :=
  let r := CommandStation_Stop s
  if ¬ r.1 then ({ ok := false, message := "Command station is not running" }, r.2)
  else ({ ok := true, message := "Command station stopped" }, r.2)

/-- command_station_transmit_packet_handler: reads the optional count
(rejecting 0) and delay parameters, calls
CommandStation_TriggerTransmit, and reports success unconditionally. -/
def command_station_transmit_packet_handler (countP delayP : Option Nat)
    (s : CSState) : RpcResp × CSState :=
  match countP with
  | some c =>
      if c = 0 then ({ ok := false, message := "Count must be greater than 0" }, s)
      else ({ ok := true, message := "Packet transmission triggered" },
            CommandStation_TriggerTransmit c (delayP.getD 100) s)
  | none =>
      ({ ok := true, message := "Packet transmission triggered" },
        CommandStation_TriggerTransmit 1 (delayP.getD 100) s)

/-! ## The system_reboot handler as an event trace (claim C8) -/

/-- Externally visible actions around a system_reboot request. -/
inductive SysEvent where
  | delayMs (n : Nat)
  | systemReset
  | respondOnTransport (ok : Bool) (message : String)
deriving Repr, DecidableEq

/-- Whether an event is a response emission on the transport. -/
def isResponseEvent : SysEvent → Bool
  | .respondOnTransport _ _ => true
  | _ => false

/-- system_reboot_handler (src/unnamed/part_015): builds the ok response
object, delays 100 ms, then calls NVIC_SystemReset(); the return of the
response object after the reset is dead code, so the handler never
returns to the dispatcher.  The pair holds the emitted action sequence
and the (never produced) returned response. -/
def system_reboot_handler : List SysEvent × Option RpcResp :=
  ([SysEvent.delayMs 100, SysEvent.systemReset], none)

/-- The dispatcher loop (RpcServerThread in src/unnamed/part_015): runs
the handler and only after it returns writes the response over the
CDC-ACM transport. -/
def dispatchRebootTrace : List SysEvent :=
  system_reboot_handler.1 ++
    (match system_reboot_handler.2 with
     | some r => [SysEvent.respondOnTransport r.ok r.message]
     | none => [])

/-! ## USB-CDC transport line framing (src/unnamed/part_016,
usbx_cdc_acm_read_thread_entry) -/

/-- The hard cap of the accumulated receive buffer (rpc_rxbuffer_t,
src/unnamed/part_005). -/
def RX_BUFFER_SIZE : Nat := 2048

/-- One scan pass of the RX thread: find the first adjacent byte pair
CR (13) followed by LF (10); on a hit the frame is the prefix before the
pair with the terminator stripped, and the bytes after the LF remain.
Returns none when the buffer holds no CR-LF pair. -/
def splitCRLF : List Nat → Option (List Nat × List Nat)
  | [] => none
  | [_] => none
  | a :: b :: rest =>
      if a = 13 ∧ b = 10 then some ([], rest)
      else
        match splitCRLF (b :: rest) with
        | some (f, r) => some (a :: f, r)
        | none => none

/-- The frame extraction loop with explicit fuel (each extracted frame
consumes at least two buffer bytes, so the buffer length is enough
fuel). -/
def scanFramesFuel : Nat → List Nat → List (List Nat) × List Nat
  | 0, buf => ([], buf)
  | fuel + 1, buf =>
      match splitCRLF buf with
      | some (f, r) =>
          let rest := scanFramesFuel fuel r
          (f :: rest.1, rest.2)
      | none => ([], buf)

/-- The frames the RX thread hands to the RPC queue from an accumulated
buffer, and the unconsumed remainder kept for the next read. -/
def scanFrames (buf : List Nat) : List (List Nat) × List Nat :=
  scanFramesFuel buf.length buf

/-- Whether a byte list contains an adjacent CR-LF pair. -/
def hasCRLF : List Nat → Bool
  | a :: b :: rest => decide (a = 13 ∧ b = 10) || hasCRLF (b :: rest)
  | _ => false

/-! ## Scanner lemmas -/

theorem splitCRLF_shorter : ∀ (buf f r : List Nat),
    splitCRLF buf = some (f, r) → f.length + 2 + r.length = buf.length := by
  intro buf
  induction buf with
  | nil => intro f r h; simp [splitCRLF] at h
  | cons a tl ih =>
    intro f r h
    cases tl with
    | nil => simp [splitCRLF] at h
    | cons b rest =>
      rw [splitCRLF] at h
      by_cases hab : a = 13 ∧ b = 10
      · rw [if_pos hab] at h
        cases h
        simp only [List.length_nil, List.length_cons]
        omega
      · rw [if_neg hab] at h
        cases hsub : splitCRLF (b :: rest) with
        | none => rw [hsub] at h; cases h
        | some fr =>
          obtain ⟨f2, r2⟩ := fr
          rw [hsub] at h
          simp only [Option.some.injEq, Prod.mk.injEq] at h
          obtain ⟨hf, hr⟩ := h
          subst hf
          subst hr
          have hrec := ih f2 r2 hsub
          simp only [List.length_cons] at hrec ⊢
          omega

theorem splitCRLF_none_of_clean : ∀ (buf : List Nat),
    hasCRLF buf = false → splitCRLF buf = none := by
  intro buf
  induction buf with
  | nil => intro _; rfl
  | cons a tl ih =>
    intro h
    cases tl with
    | nil => rfl
    | cons b rest =>
      rw [hasCRLF] at h
      simp only [Bool.or_eq_false_iff, decide_eq_false_iff_not] at h
      rw [splitCRLF, if_neg h.1, ih h.2]

theorem splitCRLF_clean_prefix : ∀ (xs rest : List Nat),
    hasCRLF xs = false →
    splitCRLF (xs ++ 13 :: 10 :: rest) = some (xs, rest) := by
  intro xs
  induction xs with
  | nil =>
    intro rest _
    rw [List.nil_append, splitCRLF, if_pos ⟨rfl, rfl⟩]
  | cons a tl ih =>
    intro rest h
    cases tl with
    | nil =>
      have hno : ¬ (a = 13 ∧ (13 : Nat) = 10) := fun hc => absurd hc.2 (by decide)
      rw [List.cons_append, List.nil_append, splitCRLF, if_neg hno]
      rw [splitCRLF, if_pos ⟨rfl, rfl⟩]
    | cons b tl2 =>
      rw [hasCRLF] at h
      simp only [Bool.or_eq_false_iff, decide_eq_false_iff_not] at h
      have hrec := ih rest h.2
      rw [List.cons_append] at hrec
      rw [List.cons_append, List.cons_append, splitCRLF, if_neg h.1, hrec]

theorem scanFramesFuel_congr : ∀ (fuel1 fuel2 : Nat) (buf : List Nat),
    buf.length ≤ fuel1 → buf.length ≤ fuel2 →
    scanFramesFuel fuel1 buf = scanFramesFuel fuel2 buf := by
  intro fuel1
  induction fuel1 with
  | zero =>
    intro fuel2 buf h1 _
    have : buf = [] := List.length_eq_zero.mp (by omega)
    subst this
    cases fuel2 <;> rfl
  | succ n ih =>
    intro fuel2 buf h1 h2
    cases hbuf : buf with
    | nil =>
      cases fuel2 <;> rfl
    | cons x xs =>
      subst hbuf
      cases fuel2 with
      | zero => simp at h2
      | succ m =>
        rw [scanFramesFuel, scanFramesFuel]
        cases hsplit : splitCRLF (x :: xs) with
        | none => rfl
        | some fr =>
          obtain ⟨f, r⟩ := fr
          have hlen := splitCRLF_shorter _ _ _ hsplit
          simp only [List.length_cons] at hlen h1 h2
          dsimp only
          rw [ih m r (by omega) (by omega)]

theorem scanFramesFuel_fuel_free (fuel : Nat) (buf : List Nat)
    (h : buf.length ≤ fuel) : scanFramesFuel fuel buf = scanFrames buf :=
  scanFramesFuel_congr fuel buf.length buf h (Nat.le_refl _)

theorem scanFrames_no_crlf (buf : List Nat) (h : hasCRLF buf = false) :
    scanFrames buf = ([], buf) := by
  have hnone := splitCRLF_none_of_clean buf h
  rw [scanFrames]
  cases hbuf : buf with
  | nil => rfl
  | cons x xs =>
    subst hbuf
    simp only [List.length_cons]
    rw [scanFramesFuel, hnone]

theorem scanFrames_crlf (xs rest : List Nat) (h : hasCRLF xs = false) :
    scanFrames (xs ++ 13 :: 10 :: rest)
      = (xs :: (scanFrames rest).1, (scanFrames rest).2) := by
  have hsplit := splitCRLF_clean_prefix xs rest h
  have hlen : (xs ++ 13 :: 10 :: rest).length = xs.length + 1 + rest.length + 1 := by
    simp
    omega
  rw [scanFrames, hlen, scanFramesFuel, hsplit]
  dsimp only
  rw [scanFramesFuel_fuel_free _ rest (by omega)]

theorem scanFrames_frame_bounded : ∀ (fuel : Nat) (buf : List Nat),
    buf.length ≤ fuel →
    ∀ f ∈ (scanFramesFuel fuel buf).1, f.length + 2 ≤ buf.length := by
  intro fuel
  induction fuel with
  | zero =>
    intro buf _ f hf
    simp [scanFramesFuel] at hf
  | succ n ih =>
    intro buf h f hf
    rw [scanFramesFuel] at hf
    cases hsplit : splitCRLF buf with
    | none => rw [hsplit] at hf; simp at hf
    | some fr =>
      obtain ⟨f2, r⟩ := fr
      rw [hsplit] at hf
      have hlen := splitCRLF_shorter _ _ _ hsplit
      simp only [List.mem_cons] at hf
      rcases hf with rfl | hf
      · omega
      · have := ih r (by omega) f hf
        omega

/-! ## Claim theorems for the control layer, RPC and transport -/

/-- C5 counterexample: set the override mask to 42 through the RPC
setter while the command station runs, then stop it; the resulting
state still carries mask 42 and therefore differs from the fresh-boot
state, so stop does not clear the RAM-only override map. -/
theorem stop_does_not_clear_override :
    ((CommandStation_Stop
        (CommandStation_SetZerobitOverrideMask 42
          (CommandStation_Start 0 freshBootCS).2)).2).zerobitOverrideMask = 42 ∧
    (CommandStation_Stop
        (CommandStation_SetZerobitOverrideMask 42
          (CommandStation_Start 0 freshBootCS).2)).2 ≠ freshBootCS := by
  refine ⟨by decide, by decide⟩

/-- C5 (amended): after start followed by stop the running flag is back
to its fresh-boot value, but stop leaves the RAM-only zero-bit override
map (mask, deltaP, deltaN) exactly as it was; the map is cleared only by
an explicit command_station_packet_reset_override request, never by
stopping the command station. -/
theorem start_stop_preserves_override_map (s : CSState) (l : Nat) :
    ((CommandStation_Stop (CommandStation_Start l s).2).2).running = false ∧
    ((CommandStation_Stop (CommandStation_Start l s).2).2).zerobitOverrideMask
      = ((CommandStation_Start l s).2).zerobitOverrideMask ∧
    ((CommandStation_Stop (CommandStation_Start l s).2).2).zerobitDeltaP
      = ((CommandStation_Start l s).2).zerobitDeltaP ∧
    ((CommandStation_Stop (CommandStation_Start l s).2).2).zerobitDeltaN
      = ((CommandStation_Start l s).2).zerobitDeltaN ∧
    (∀ s2 : CSState, ((CommandStation_Stop s2).2).zerobitOverrideMask
        = s2.zerobitOverrideMask ∧
      ((CommandStation_Stop s2).2).zerobitDeltaP = s2.zerobitDeltaP ∧
      ((CommandStation_Stop s2).2).zerobitDeltaN = s2.zerobitDeltaN) := by
  refine ⟨?_, ?_, ?_, ?_, ?_⟩
  · by_cases h : s.running <;>
      simp [CommandStation_Start, CommandStation_Stop, h]
  · by_cases h : s.running <;>
      simp [CommandStation_Start, CommandStation_Stop, h]
  · by_cases h : s.running <;>
      simp [CommandStation_Start, CommandStation_Stop, h]
  · by_cases h : s.running <;>
      simp [CommandStation_Start, CommandStation_Stop, h]
  · intro s2
    by_cases h : s2.running <;> simp [CommandStation_Stop, h]

/-- C7: CommandStation_Start succeeds exactly when the station is not
yet running and CommandStation_Stop exactly when it is; accordingly the
start handler answers ok and starts the station only from the stopped
state and answers the already-running error otherwise, and the stop
handler symmetrically. -/
theorem start_stop_busy_semantics (s : CSState) (l : Nat) (hl : l ≤ 3) :
    ((CommandStation_Start l s).1 = true ↔ s.running = false) ∧
    ((CommandStation_Stop s).1 = true ↔ s.running = true) ∧
    (s.running = false →
      command_station_start_handler (LoopParam.unsigned l) s
        = ({ ok := true, message := "Command station started" },
           { s with loop := l, running := true })) ∧
    (s.running = true →
      command_station_start_handler (LoopParam.unsigned l) s
        = ({ ok := false, message := "Command station is already running" }, s)) ∧
    (s.running = true →
      command_station_stop_handler s
        = ({ ok := true, message := "Command station stopped" },
           { s with running := false })) ∧
    (s.running = false →
      command_station_stop_handler s
        = ({ ok := false, message := "Command station is not running" }, s)) := by
  have hm : l % 256 = l := Nat.mod_eq_of_lt (by omega)
  have hgt : ¬ l % 256 > 3 := by omega
  refine ⟨?_, ?_, ?_, ?_, ?_, ?_⟩ <;>
    by_cases h : s.running <;>
      simp [CommandStation_Start, CommandStation_Stop,
        command_station_start_handler, command_station_stop_handler,
        startResponse, h, hm, hgt, hl]

/-- C10: when no custom packet has been loaded,
command_station_transmit_packet still answers ok with the message
Packet transmission triggered for every count of at least 1 and every
delay, while CommandStation_TriggerTransmit leaves the whole state — in
particular the disarmed trigger — unchanged, so the caller is never
told the slot was empty. -/
theorem transmit_without_loaded_packet_reports_ok (s : CSState)
    (countP delayP : Option Nat)
    (hno : s.customPacketLoaded = false)
    (htrig : s.customPacketTrigger = false)
    (hc : ∀ c, countP = some c → 1 ≤ c) :
    (command_station_transmit_packet_handler countP delayP s).1
      = { ok := true, message := "Packet transmission triggered" } ∧
    (command_station_transmit_packet_handler countP delayP s).2 = s ∧
    ((command_station_transmit_packet_handler countP delayP s).2).customPacketTrigger
      = false := by
  cases countP with
  | none =>
    simp [command_station_transmit_packet_handler,
      CommandStation_TriggerTransmit, hno, htrig]
  | some c =>
    have hc1 : 1 ≤ c := hc c rfl
    have hc0 : ¬ c = 0 := by omega
    simp [command_station_transmit_packet_handler,
      CommandStation_TriggerTransmit, hno, htrig, hc0]

/-- C8: the system_reboot handler performs the delay and the system
reset but never returns, so the dispatch trace of a system_reboot
request contains the reset and no response emission at all — the ok
response is not sent before (or after) the reset. -/
theorem reboot_trace_has_no_response :
    dispatchRebootTrace = [SysEvent.delayMs 100, SysEvent.systemReset] ∧
    dispatchRebootTrace.filter isResponseEvent = [] ∧
    SysEvent.systemReset ∈ dispatchRebootTrace := by
  refine ⟨rfl, rfl, by decide⟩

/-- C9 counterexample: the line left-brace right-brace terminated by a
lone LF is not framed by the RX thread scanner (no frame is produced),
while the same line terminated by CR LF is framed with the terminator
stripped. -/
theorem lone_lf_not_framed :
    (scanFrames [123, 125, 10]).1 = [] ∧
    (scanFrames [123, 125, 13, 10]).1 = [[123, 125]] := by
  refine ⟨by decide, by decide⟩

/-- C9 (amended): the transport frames a line exactly at a CR-LF pair —
the first CR-LF-free prefix is handed over with the two terminator
bytes stripped and scanning continues behind it; a buffer without any
CR-LF pair (in particular a line ending in a lone LF) produces no
frame; and every frame produced from a buffer bounded by the 2048-byte
RX buffer is itself at least two bytes shorter than that bound. -/
theorem crlf_framing (xs rest buf : List Nat)
    (hxs : hasCRLF xs = false)
    (hbuf : buf.length ≤ RX_BUFFER_SIZE) :
    scanFrames (xs ++ 13 :: 10 :: rest)
      = (xs :: (scanFrames rest).1, (scanFrames rest).2) ∧
    (hasCRLF buf = false → scanFrames buf = ([], buf)) ∧
    (∀ f ∈ (scanFrames buf).1, f.length + 2 ≤ RX_BUFFER_SIZE) := by
  refine ⟨scanFrames_crlf xs rest hxs, scanFrames_no_crlf buf, ?_⟩
  intro f hf
  have := scanFrames_frame_bounded buf.length buf (Nat.le_refl _) f hf
  omega

/-! ## The TIM2 update ISR and the zero-bit override (claim C1) -/

/-- Modelled from the spec: DCC_TX_MIN_BIT_0_TIMING comes from the DCC
transmit library, which is not under src; the spec classifies half
periods of at least 90 microseconds as logical 0 (the decoder zero
window of section 4.D; the OverrideMap semantics of section 3 test the
auto-reload value against this constant). -/
def DCC_TX_MIN_BIT_0_TIMING : Nat := 90

/-- The ISR-visible static state of the canonical SUSI_master.c
translation unit: the per-packet bit counter mask and current phase
maintained by trackOutputs, and the override map read by the ISR. -/
structure IsrState where
  bitCountMask : Nat
  currentPhaseIsP : Bool
  zerobitOverrideMask : Nat
  zerobitDeltaP : Int
  zerobitDeltaN : Int
deriving Repr, DecidableEq

/-- CommandStation::trackOutputs (SUSI_master.c, canonical variant):
records the current phase and, on a positive half period, resets the
bit counter mask to 1 at the first bit of a packet or shifts it left by
one otherwise (a uint64_t shift, wrapping past bit 63).  The GPIO rail
drives and the scope trigger pin are hardware effects outside the
model. -/
def trackOutputs (s : IsrState) (N P first_bit : Bool) : IsrState :=
  { s with currentPhaseIsP := P
           bitCountMask :=
             if P then (if first_bit then 1 else s.bitCountMask * 2 % 2 ^ 64)
             else s.bitCountMask }

/-- One half-bit of the transmit engine output as the ISR sees it: the
auto-reload value returned by transmit(), the output phase driven for
this half period, and the first-bit flag. -/
structure HalfBit where
  arr : Nat
  phaseP : Bool
  first_bit : Bool
deriving Repr, DecidableEq

/-- The update branch of TIM2_IRQHandler (SUSI_master.c): after
transmit() has driven trackOutputs for this half period and returned
the next auto-reload value, the override adjustment is applied — when
the current packet bit is selected by zerobitOverrideMask and the value
is a zero bit (arr at least DCC_TX_MIN_BIT_0_TIMING), zerobitDeltaP or
zerobitDeltaN is added according to the current phase; the sum is
computed in uint32_t arithmetic. -/
def tim2Adjust (s : IsrState) (arr : Nat) : Nat :=
  if s.zerobitOverrideMask &&& s.bitCountMask ≠ 0 ∧ DCC_TX_MIN_BIT_0_TIMING ≤ arr
  then (((arr : Int)
          + (if s.currentPhaseIsP then s.zerobitDeltaP else s.zerobitDeltaN))
        % (2 ^ 32 : Int)).toNat
  else arr

/-- One ISR invocation on one half bit: transmit() updates the
trackOutputs state (driving the rails in opposite phases) and returns
the auto-reload value, then the handler adjusts it and programs ARR. -/
def isrStep (s : IsrState) (hb : HalfBit) : Nat × IsrState :=
  let s2 := trackOutputs s (¬ hb.phaseP) hb.phaseP hb.first_bit
  (tim2Adjust s2 hb.arr, s2)

/-- The ARR values programmed over a sequence of half bits. -/
def isrRun (s : IsrState) : List HalfBit → List Nat
  | [] => []
  | hb :: rest => (isrStep s hb).1 :: isrRun (isrStep s hb).2 rest

/-- Modelled from the spec: the transmit() engine of the DCC library is
not under src; per spec section 4.C each logical bit of a packet is
emitted as two consecutive half periods of the same width — the first
with positive drive phase, the second negative — whose width is
bit1_duration for a 1 and bit0_duration for a 0, and the first_bit flag
marks the first bit of the packet. -/
def packetHalfBits (cfg : TimingConfig) : Bool → List Bool → List HalfBit
  | _, [] => []
  | isFirst, b :: rest =>
      let d := if b then cfg.bit1_duration else cfg.bit0_duration
      ⟨d, true, isFirst⟩ :: ⟨d, false, isFirst⟩ :: packetHalfBits cfg false rest

/-- The claimed ARR value for the half periods of packet bit i of width
d: adjusted by delta exactly when bit i of the override mask is set
(i below 64) and the width is a zero-bit width. -/
def expectedArr (mask : Nat) (delta : Int) (i : Nat) (d : Nat) : Nat :=
  if i < 64 ∧ mask.testBit i ∧ DCC_TX_MIN_BIT_0_TIMING ≤ d
  then (((d : Int) + delta) % (2 ^ 32 : Int)).toNat
  else d

/-- The claimed ARR sequence for a packet bit list starting at bit
index i: per bit, the positive half adjusted by deltaP and the negative
half by deltaN when selected. -/
def expectedRun (mask : Nat) (dP dN : Int) (cfg : TimingConfig) :
    Nat → List Bool → List Nat
  | _, [] => []
  | i, b :: rest =>
      let d := if b then cfg.bit1_duration else cfg.bit0_duration
      expectedArr mask dP i d :: expectedArr mask dN i d
        :: expectedRun mask dP dN cfg (i + 1) rest

theorem pow_mod_double (i : Nat) :
    (2 ^ i % 2 ^ 64) * 2 % 2 ^ 64 = 2 ^ (i + 1) % 2 ^ 64 := by
  have h2 : (2 : Nat) % 2 ^ 64 = 2 := by norm_num
  calc (2 ^ i % 2 ^ 64) * 2 % 2 ^ 64
      = (2 ^ i % 2 ^ 64) * (2 % 2 ^ 64) % 2 ^ 64 := by rw [h2]
    _ = (2 ^ i * 2) % 2 ^ 64 := (Nat.mul_mod _ _ _).symm
    _ = 2 ^ (i + 1) % 2 ^ 64 := by rw [← pow_succ]

theorem and_pow_mod_ne (mask i : Nat) (hm : mask < 2 ^ 64) :
    (mask &&& (2 ^ i % 2 ^ 64) ≠ 0) ↔ (i < 64 ∧ mask.testBit i) := by
  by_cases hi : i < 64
  · have hlt : (2 : Nat) ^ i < 2 ^ 64 := Nat.pow_lt_pow_right (by omega) hi
    rw [Nat.mod_eq_of_lt hlt, Nat.and_two_pow]
    cases htb : mask.testBit i
    · simp [htb]
    · simp [htb, hi]
  · have hdvd : (2 : Nat) ^ 64 ∣ 2 ^ i := pow_dvd_pow 2 (by omega)
    obtain ⟨c, hc⟩ := hdvd
    have hz : 2 ^ i % 2 ^ 64 = 0 := by rw [hc]; exact Nat.mul_mod_right _ _
    rw [hz, Nat.and_zero]
    simp [hi]

theorem tim2Adjust_pow (mask : Nat) (dP dN : Int) (i : Nat) (d : Nat) (c : Bool)
    (hm : mask < 2 ^ 64) :
    tim2Adjust ⟨2 ^ i % 2 ^ 64, c, mask, dP, dN⟩ d
      = expectedArr mask (if c then dP else dN) i d := by
  unfold tim2Adjust expectedArr
  dsimp only
  by_cases hsel : i < 64 ∧ mask.testBit i = true
  · have h1 : mask &&& (2 ^ i % 2 ^ 64) ≠ 0 := (and_pow_mod_ne mask i hm).mpr hsel
    by_cases hd : DCC_TX_MIN_BIT_0_TIMING ≤ d
    · rw [if_pos (And.intro h1 hd),
        if_pos (And.intro hsel.1 (And.intro hsel.2 hd))]
    · rw [if_neg (fun hc => hd hc.2), if_neg (fun hc => hd hc.2.2)]
  · have h1 : mask &&& (2 ^ i % 2 ^ 64) = 0 := by
      by_contra hne
      exact hsel ((and_pow_mod_ne mask i hm).mp hne)
    rw [if_neg (fun hc => hc.1 h1),
      if_neg (fun hc => hsel (And.intro hc.1 hc.2.1))]

theorem isrRun_tail_eq (bits : List Bool) : ∀ (i : Nat) (c : Bool) (mask : Nat)
    (dP dN : Int) (cfg : TimingConfig), mask < 2 ^ 64 →
    isrRun ⟨2 ^ i % 2 ^ 64, c, mask, dP, dN⟩ (packetHalfBits cfg false bits)
      = expectedRun mask dP dN cfg (i + 1) bits := by
  induction bits with
  | nil => intro i c mask dP dN cfg hm; rfl
  | cons b rest ih =>
    intro i c mask dP dN cfg hm
    have hstep1 : isrStep ⟨2 ^ i % 2 ^ 64, c, mask, dP, dN⟩
        ⟨if b then cfg.bit1_duration else cfg.bit0_duration, true, false⟩
        = (tim2Adjust ⟨(2 ^ i % 2 ^ 64) * 2 % 2 ^ 64, true, mask, dP, dN⟩
             (if b then cfg.bit1_duration else cfg.bit0_duration),
           ⟨(2 ^ i % 2 ^ 64) * 2 % 2 ^ 64, true, mask, dP, dN⟩) := rfl
    have hstep2 : isrStep ⟨(2 ^ i % 2 ^ 64) * 2 % 2 ^ 64, true, mask, dP, dN⟩
        ⟨if b then cfg.bit1_duration else cfg.bit0_duration, false, false⟩
        = (tim2Adjust ⟨(2 ^ i % 2 ^ 64) * 2 % 2 ^ 64, false, mask, dP, dN⟩
             (if b then cfg.bit1_duration else cfg.bit0_duration),
           ⟨(2 ^ i % 2 ^ 64) * 2 % 2 ^ 64, false, mask, dP, dN⟩) := rfl
    show isrRun ⟨2 ^ i % 2 ^ 64, c, mask, dP, dN⟩
        (⟨if b then cfg.bit1_duration else cfg.bit0_duration, true, false⟩
          :: ⟨if b then cfg.bit1_duration else cfg.bit0_duration, false, false⟩
          :: packetHalfBits cfg false rest)
      = expectedArr mask dP (i + 1) (if b then cfg.bit1_duration else cfg.bit0_duration)
          :: expectedArr mask dN (i + 1) (if b then cfg.bit1_duration else cfg.bit0_duration)
          :: expectedRun mask dP dN cfg (i + 1 + 1) rest
    rw [isrRun, isrRun, hstep1]
    dsimp only
    rw [hstep2]
    dsimp only
    rw [show (2 ^ i % 2 ^ 64) * 2 % 2 ^ 64 = 2 ^ (i + 1) % 2 ^ 64 from pow_mod_double i]
    rw [tim2Adjust_pow mask dP dN (i + 1) _ true hm]
    rw [tim2Adjust_pow mask dP dN (i + 1) _ false hm]
    rw [ih (i + 1) false mask dP dN cfg hm]
    rfl

theorem isrRun_packet_eq (bits : List Bool) (mask m0 : Nat) (c0 : Bool)
    (dP dN : Int) (cfg : TimingConfig) (hm : mask < 2 ^ 64) :
    isrRun ⟨m0, c0, mask, dP, dN⟩ (packetHalfBits cfg true bits)
      = expectedRun mask dP dN cfg 0 bits := by
  cases bits with
  | nil => rfl
  | cons b rest =>
    have hstep1 : isrStep ⟨m0, c0, mask, dP, dN⟩
        ⟨if b then cfg.bit1_duration else cfg.bit0_duration, true, true⟩
        = (tim2Adjust ⟨2 ^ 0 % 2 ^ 64, true, mask, dP, dN⟩
             (if b then cfg.bit1_duration else cfg.bit0_duration),
           ⟨2 ^ 0 % 2 ^ 64, true, mask, dP, dN⟩) := rfl
    have hstep2 : isrStep ⟨2 ^ 0 % 2 ^ 64, true, mask, dP, dN⟩
        ⟨if b then cfg.bit1_duration else cfg.bit0_duration, false, true⟩
        = (tim2Adjust ⟨2 ^ 0 % 2 ^ 64, false, mask, dP, dN⟩
             (if b then cfg.bit1_duration else cfg.bit0_duration),
           ⟨2 ^ 0 % 2 ^ 64, false, mask, dP, dN⟩) := rfl
    show isrRun ⟨m0, c0, mask, dP, dN⟩
        (⟨if b then cfg.bit1_duration else cfg.bit0_duration, true, true⟩
          :: ⟨if b then cfg.bit1_duration else cfg.bit0_duration, false, true⟩
          :: packetHalfBits cfg false rest)
      = expectedArr mask dP 0 (if b then cfg.bit1_duration else cfg.bit0_duration)
          :: expectedArr mask dN 0 (if b then cfg.bit1_duration else cfg.bit0_duration)
          :: expectedRun mask dP dN cfg 1 rest
    rw [isrRun, isrRun, hstep1]
    dsimp only
    rw [hstep2]
    dsimp only
    rw [tim2Adjust_pow mask dP dN 0 _ true hm]
    rw [tim2Adjust_pow mask dP dN 0 _ false hm]
    rw [isrRun_tail_eq rest 0 false mask dP dN cfg hm]
    rfl

/-- C1: over a whole packet, the ISR programs each half period with the
engine value adjusted by deltaP on the positive phase and deltaN on the
negative phase exactly for the packet bits selected by the override
mask whose width is a zero-bit width (at least DCC_TX_MIN_BIT_0_TIMING
microseconds); every other half bit — mask bit clear, bit index beyond
63, or a short (logical 1) width — is programmed unadjusted.  In
particular, with mask equal to 2 to the k, only bit k of the packet is
altered (by deltaP then deltaN) and bits k-1 and k+1 are emitted
unchanged. -/
theorem zerobit_override_exactness (cfg : TimingConfig) (bits : List Bool)
    (mask m0 : Nat) (c0 : Bool) (dP dN : Int) (hm : mask < 2 ^ 64) :
    isrRun ⟨m0, c0, mask, dP, dN⟩ (packetHalfBits cfg true bits)
      = expectedRun mask dP dN cfg 0 bits ∧
    (∀ k, mask = 2 ^ k → ∀ i d, i ≠ k →
      expectedArr mask dP i d = d ∧ expectedArr mask dN i d = d) ∧
    (∀ k, k < 64 → mask = 2 ^ k → ∀ d, DCC_TX_MIN_BIT_0_TIMING ≤ d →
      (0 ≤ (d : Int) + dP → (d : Int) + dP < 2 ^ 32 →
        expectedArr mask dP k d = ((d : Int) + dP).toNat) ∧
      (0 ≤ (d : Int) + dN → (d : Int) + dN < 2 ^ 32 →
        expectedArr mask dN k d = ((d : Int) + dN).toNat)) ∧
    (∀ i d, d < DCC_TX_MIN_BIT_0_TIMING →
      expectedArr mask dP i d = d ∧ expectedArr mask dN i d = d) := by
  refine ⟨isrRun_packet_eq bits mask m0 c0 dP dN cfg hm, ?_, ?_, ?_⟩
  · intro k hk i d hik
    have htb : (2 ^ k : Nat).testBit i = false := by
      rw [Nat.testBit_two_pow]
      simp
      omega
    subst hk
    constructor <;> simp [expectedArr, htb]
  · intro k hk64 hk d hd
    have htb : (2 ^ k : Nat).testBit k = true := by
      rw [Nat.testBit_two_pow]
      simp
    subst hk
    constructor <;>
      · intro h0 h32
        rw [expectedArr, if_pos ⟨hk64, htb, hd⟩, Int.emod_eq_of_lt h0 h32]
  · intro i d hd
    have : ¬ DCC_TX_MIN_BIT_0_TIMING ≤ d := by omega
    constructor <;> simp [expectedArr, this]

/-! ## Witnesses: the hypothesis-bearing theorems applied at concrete
inputs -/

/-- Witness for C1 at a concrete packet, mask bit 2, deltas 10 and minus 10. -/
theorem zerobit_override_exactness_witness :
    (2 : Nat) ^ 2 < 2 ^ 64 ∧
    isrRun ⟨0, true, 2 ^ 2, 10, -10⟩
        (packetHalfBits ⟨17, 58, 100, false⟩ true [true, false, false, true])
      = expectedRun (2 ^ 2) 10 (-10) ⟨17, 58, 100, false⟩ 0
          [true, false, false, true] :=
  ⟨by decide,
   (zerobit_override_exactness ⟨17, 58, 100, false⟩ [true, false, false, true]
      (2 ^ 2) 0 true 10 (-10) (by decide)).1⟩

/-- Witness for C2 on the freshly initialized parameter state. -/
theorem save_then_restore_roundtrip_witness :
    (parameter_manager_save defaultPMState).2.1 = some (savedImage defaultPMState) ∧
    defaultPMState.initialized = true ∧
    parameter_manager_restore (savedImage defaultPMState) defaultPMState
      = (0, { defaultPMState with
              shadow := defaultPMState.shadow
              modified := false }) :=
  ⟨rfl, rfl,
   (save_then_restore_roundtrip defaultPMState defaultPMState
      (savedImage defaultPMState) rfl rfl).2.1⟩

/-- Witness for C3: flipping bit 0 of payload byte 0 of the saved image
of the freshly initialized state makes restore fail with -1. -/
theorem restore_rejects_single_bit_flip_witness :
    (parameter_manager_save defaultPMState).2.1 = some (savedImage defaultPMState) ∧
    defaultPMState.shadow.length = PARAM_DATA_SIZE ∧
    (0 : Nat) < PARAM_DATA_SIZE ∧ (0 : Nat) < 8 ∧
    parameter_manager_restore (flipPayloadBit (savedImage defaultPMState) 0 0)
        defaultPMState = (-1, defaultPMState) :=
  ⟨rfl, by decide, by decide, by decide,
   (restore_rejects_single_bit_flip defaultPMState defaultPMState
      (savedImage defaultPMState) 0 0 rfl (by decide) (by decide) (by decide)
      rfl).2.2.2.2.1⟩

/-- Witness for C4 on the saved image of the freshly initialized
state. -/
theorem restore_copies_iff_header_checks_witness :
    defaultPMState.initialized = true ∧
    ((parameter_manager_restore (savedImage defaultPMState) defaultPMState).1 = 0 ↔
      ((savedImage defaultPMState).magic = MAGIC_NUMBER ∧
       (savedImage defaultPMState).version = VERSION ∧
       (savedImage defaultPMState).dataSize = PARAM_DATA_SIZE ∧
       calculate_crc32 (savedImage defaultPMState).data
         = (savedImage defaultPMState).crc32)) :=
  ⟨rfl,
   (restore_copies_iff_header_checks (savedImage defaultPMState)
      defaultPMState rfl).1⟩

/-- Witness for C6 (amended) at value 200. -/
theorem setters_unvalidated_reach_snapshot_witness :
    defaultPMState.initialized = true ∧
    defaultPMState.shadow.length = PARAM_DATA_SIZE ∧
    (200 : Nat) < 256 ∧
    (set_dcc_bit1_duration 200 defaultPMState).1 = 0 ∧
    (csStartSnapshot (set_dcc_bit1_duration 200 defaultPMState).2).bit1_duration
      = 200 := by
  refine ⟨rfl, by decide, by decide, ?_, ?_⟩
  · exact (setters_unvalidated_reach_snapshot defaultPMState 200 rfl
      (by decide) (by decide)).1
  · exact (setters_unvalidated_reach_snapshot defaultPMState 200 rfl
      (by decide) (by decide)).2.1

/-- Witness for C7 on the fresh-boot state with loop 0. -/
theorem start_stop_busy_semantics_witness :
    (0 : Nat) ≤ 3 ∧
    ((CommandStation_Start 0 freshBootCS).1 = true ↔
      freshBootCS.running = false) :=
  ⟨by decide,
   (start_stop_busy_semantics freshBootCS 0 (by decide)).1⟩

/-- Witness for C9 (amended) at a concrete two-byte line and empty
remainder. -/
theorem crlf_framing_witness :
    hasCRLF [123, 125] = false ∧
    ([123, 125, 10] : List Nat).length ≤ RX_BUFFER_SIZE ∧
    scanFrames ([123, 125] ++ 13 :: 10 :: ([] : List Nat))
      = ([123, 125] :: (scanFrames ([] : List Nat)).1,
         (scanFrames ([] : List Nat)).2) :=
  ⟨by decide, by decide,
   (crlf_framing [123, 125] [] [123, 125, 10] (by decide) (by decide)).1⟩

/-- Witness for C10 on the fresh-boot state (empty slot), count 3,
delay 50. -/
theorem transmit_without_loaded_packet_reports_ok_witness :
    freshBootCS.customPacketLoaded = false ∧
    freshBootCS.customPacketTrigger = false ∧
    (command_station_transmit_packet_handler (some 3) (some 50) freshBootCS).1
      = { ok := true, message := "Packet transmission triggered" } :=
  ⟨rfl, rfl,
   (transmit_without_loaded_packet_reports_ok freshBootCS (some 3) (some 50)
      rfl rfl (fun c hc => by cases hc; decide)).1⟩

end DCCTester
